import Mathlib

/-!
Verification of the potts Polymer-to-TypeScript declaration generator.

The repository contains three generator variants:
* index.js (writes one interface per element),
* the per-file generator (src/unnamed/part_000: filterFeatures, cast,
  getFeatureDetails, toModulesMap, buildModules, splitModulesToFiles,
  and a Promise.all of per-file writes), and
* the combined-file generator (src/unnamed/part_001: parseType, printJSdoc,
  printMethod, printProperty, printBehavior, filterFeatures,
  getFeatureDetails, a Map-based module grouping, and a single-file write).

JavaScript strings are modelled as lists of characters (`Str`); `str`
converts a Lean string literal.  JavaScript code that can throw a TypeError
on the modelled inputs is embedded as an Option-valued function, `none`
meaning the exception.  Characters are ASCII in all analysed inputs, so
String.prototype.toUpperCase on a single character is modelled by
Char.toUpper.
-/

namespace Potts

abbrev Str := List Char

def str (s : String) : Str := s.data

/-- Whitespace test used by the embeddings of String.prototype.trim and of
the blank-line regexes; the analysed strings only ever contain these four
whitespace characters. -/
def wsChar (c : Char) : Bool := c == ' ' || c == '\t' || c == '\n' || c == '\r'

/-- Embedding of String.prototype.trimStart. -/
def jsTrimStart (s : Str) : Str := s.dropWhile wsChar

/-- Embedding of the regex replace(/\s*$/, "") (strip trailing whitespace),
also the trailing half of String.prototype.trim. -/
def jsTrimEnd (s : Str) : Str := (s.reverse.dropWhile wsChar).reverse

/-- Embedding of String.prototype.trim. -/
def jsTrim (s : Str) : Str := jsTrimEnd (jsTrimStart s)

/-- Embedding of String.prototype.split with a one-character separator:
split [] of "" is [""], and separators delimit (possibly empty) fields. -/
def splitOnChar (sep : Char) : Str → List Str
  | [] => [[]]
  | c :: r =>
    if c == sep then [] :: splitOnChar sep r
    else
      match splitOnChar sep r with
      | [] => [[c]]
      | h :: t => (c :: h) :: t

/-- Embedding of Array.prototype.join with a string separator. -/
def joinSep (sep : Str) : List Str → Str
  | [] => []
  | [x] => x
  | x :: y :: t => x ++ sep ++ joinSep sep (y :: t)

/-- Substring test (String.prototype.includes / the existence of a regex
match at some position). -/
def infixOf (pat : Str) : Str → Bool
  | [] => pat.isEmpty
  | c :: rest => pat.isPrefixOf (c :: rest) || infixOf pat rest

/-- Truthiness of a possibly-absent JavaScript string: undefined, null and
the empty string are falsy. -/
def truthy (s : Option Str) : Bool :=
  match s with
  | some s => !s.isEmpty
  | none => false

/-- Tail of the global regex replace
name.replace(/(?:^|-)(.)/g, (_, m) => m.toUpperCase()): after the
start-of-string match has been consumed, each occurrence of a hyphen
followed by any character is replaced by that character uppercased
(the hyphen itself can be the captured character). -/
def camelGo : Str → Str
  | [] => []
  | c :: r =>
    if c = '-' then
      match r with
      | [] => [c]
      | c2 :: r2 => c2.toUpper :: camelGo r2
    else c :: camelGo r

/-- Embedding of name.replace(/(?:^|-)(.)/g, (_, m) => m.toUpperCase()),
the identifier-casing step shared by all three generators: the first
character of the string is uppercased (start-of-string alternative), then
hyphen-plus-character pairs are collapsed to the uppercased character. -/
def camel : Str → Str
  | [] => []
  | c :: r => c.toUpper :: camelGo r

/-- Embedding of the indent(tabs) helper of the combined-file generator:
the assembled template string is split into lines; when the indent was
given as a number, all-whitespace lines become empty; every other line is
prefixed with the indent string and stripped of trailing whitespace. -/
def indentWith (indentString : Str) (numeric : Bool) (s : Str) : Str :=
  joinSep (str ("\n"))
    ((splitOnChar '\n' s).map
      (fun line =>
        if numeric && line.all wsChar then []
        else jsTrimEnd (indentString ++ line)))

/-- Embedding of the non-global regex replace
file.replace(/(bower_components|node_modules)\//, repo => repos[repo])
used by both module-key derivations: the first occurrence (anywhere in the
path, not only a leading segment) of bower_components/ or node_modules/ is
rewritten to bower: or npm:. -/
def replaceRepos : Str → Str
  | [] => []
  | c :: rest =>
    if (str ("bower_components/")).isPrefixOf (c :: rest) then
      str ("bower:") ++ (c :: rest).drop 17
    else if (str ("node_modules/")).isPrefixOf (c :: rest) then
      str ("npm:") ++ (c :: rest).drop 13
    else c :: replaceRepos rest

/-- One step of the object/Map bucketing reduces: push x onto the existing
entry for key k, or append a fresh entry at the end (JavaScript object and
Map keys enumerate in insertion order). -/
def updMap {α : Type} (k : Str) (x : α) :
    List (Str × List α) → List (Str × List α)
  | [] => [(k, [x])]
  | (k0, xs) :: rest =>
    if k0 = k then (k0, xs ++ [x]) :: rest
    else (k0, xs) :: updMap k x rest

/-- The bucketing reduce shared by toModulesFiles-style groupings: fold the
input in order, pushing each element onto the bucket of its key. -/
def groupFold {α : Type} (key : α → Str) (xs : List α) : List (Str × List α) :=
  xs.foldl (fun m x => updMap (key x) x m) []

/-- Reading a bucket out of the grouped structure ([] when absent). -/
def lookupGroup {α : Type} (k : Str) : List (Str × List α) → List α
  | [] => []
  | (k0, xs) :: rest => if k0 = k then xs else lookupGroup k rest

/-- Source file record attached to every analyzed feature. -/
structure SourceRange where
  file : Str
deriving DecidableEq

/-! ### Per-file generator (src/unnamed/part_000) -/

namespace P0

/-- Function-member parameter as consumed by cast. -/
structure Param where
  name : Str
deriving DecidableEq

/-- Analyzer property record consumed by getFeatureDetails; priv models the
source field named private. -/
structure Property where
  name : Str
  type : Str
  readOnly : Bool
  priv : Bool
  params : Option (List Param)
  description : Option Str
deriving DecidableEq

/-- Analyzer feature record: kinds are the keys of the feature.kinds map. -/
structure Feature where
  kinds : List Str
  className : Option Str
  tagName : Option Str
  sourceRange : SourceRange
  description : Option Str
  properties : List Property
deriving DecidableEq

def supportedFeatures : List Str :=
  [str ("element"), str ("element-mixin"), str ("namespace"),
   str ("function"), str ("behavior")]

/-- Embedding of
feature => Array.from(feature.kinds.keys()).some(key => supportedFeatures.includes(key)). -/
def filterFeatures (f : Feature) : Bool :=
  f.kinds.any (fun k => supportedFeatures.contains k)

/-- Result of cast: the rendered member type plus, for Function members,
the rendered parameter fragments. -/
structure CastResult where
  returnType : Str
  methodParams : Option (List Str)
deriving DecidableEq

def primitives : List Str := [str ("string"), str ("number"), str ("boolean")]

def polymerVoidMethods : List Str :=
  [str ("created"), str ("ready"), str ("attached"), str ("detached"),
   str ("attributeChanged"), str ("connectedCallback"),
   str ("disconnectedCallback"), str ("attributeChangedCallback"),
   str ("updateStyles"), str ("linkPaths"), str ("unlinkPaths"),
   str ("notifySplices"), str ("set"), str ("setProperties")]

/-- Embedding of cast(name, type, params). -/
def cast (name type : Str) (params : Option (List Param)) : CastResult :=
  if primitives.contains type then { returnType := type, methodParams := none }
  else if type = str ("Function") then
    { returnType :=
        if polymerVoidMethods.contains name then str ("void") else str ("any")
      methodParams :=
        some ((params.getD []).map (fun p => p.name ++ str (": any"))) }
  else
    { returnType := if type = str ("Array") then str ("Array<any>") else str ("any")
      methodParams := none }

/-- Rendered member record produced inside getFeatureDetails (jsDoc none
models a null jsDoc, some [] the empty string). -/
structure RenderedProperty where
  jsDoc : Option Str
  readonly : Str
  type : Str
  params : Option (List Str)
  name : Str
deriving DecidableEq

/-- Classified descriptor produced by getFeatureDetails; nameSpace models
the source field named namespace (none = null, possibly-empty string
otherwise). -/
structure Details where
  nameSpace : Option Str
  name : Str
  module : Str
  jsdoc : Option Str
  properties : List RenderedProperty
deriving DecidableEq

/-- Rendering of one retained analyzer property inside getFeatureDetails. -/
def renderProperty (p : Property) : RenderedProperty :=
  let c := cast p.name p.type p.params
  { jsDoc :=
      match p.description with
      | some d => if d.isEmpty then none else some (jsTrim d)
      | none => none
    readonly := if p.readOnly then str ("readonly ") else []
    type := c.returnType
    params := c.methodParams
    name := p.name }

/-- Embedding of getFeatureDetails.  The source reads
cNameParts = feature.className && feature.className.split(".") and falls
back to name = feature.tagName; when the feature has neither a truthy
className nor a tagName, name is undefined and name.replace throws a
TypeError, modelled by none. -/
def getFeatureDetails (f : Feature) : Option Details :=
  let nameParts : Option (Option Str × Str) :=
    if truthy f.className then
      let parts := splitOnChar '.' (f.className.getD [])
      some (some (joinSep (str (".")) parts.dropLast), parts.getLastD [])
    else
      match f.tagName with
      | some tn => some (none, tn)
      | none => none
  nameParts.map (fun ns_name =>
    let camelName := camel ns_name.2
    { nameSpace := ns_name.1
      name := camelName
      module := f.sourceRange.file
      jsdoc :=
        match f.description with
        | some d => if d.isEmpty then none else some (jsTrim d)
        | none => none
      properties :=
        (f.properties.filter (fun p => !p.priv)).map renderProperty
          ++ [{ jsDoc := some [], readonly := [], name := str ("new"),
                params := some [], type := camelName }] })

/-- Namespace fragment of the module key:
feature.namespace ? "#" + feature.namespace : "". -/
def nsSuffix (ns : Option Str) : Str :=
  match ns with
  | some s => if s.isEmpty then [] else '#' :: s
  | none => []

/-- Module key computed inside the toModulesMap reduce. -/
def modulePath (d : Details) : Str := replaceRepos d.module ++ nsSuffix d.nameSpace

/-- Embedding of toModulesMap: features.reduce into an object keyed by the
module key, pushing each descriptor onto its bucket. -/
def toModulesMap (ds : List Details) : List (Str × List Details) :=
  groupFold modulePath ds

/-- Embedding of the first regex of splitModulesToFiles,
mod.match(/declare module "([^"#]*)["#]/)[1]: the capture of the first
match, none when there is no match (where the source would throw on
null[1]). -/
def extractPath : Str → Option Str
  | [] => none
  | c :: rest =>
    if (str ("declare module \x22")).isPrefixOf (c :: rest) then
      let after := (c :: rest).drop 16
      let cap := after.takeWhile (fun ch => !(ch == '\x22' || ch == '#'))
      if cap.length < after.length then some cap else extractPath rest
    else extractPath rest

/-- The optional scheme group (?:[^:]*:)? of the file-name regex consumes
through the first colon when one is present. -/
def dropScheme (p : Str) : Str :=
  if p.contains ':' then (p.dropWhile (fun c => !(c == ':'))).tail else p

/-- The greedy directory group (?:[^\/]+\/)* consumes every complete
slash-terminated segment, leaving the final path segment. -/
def lastSegment (p : Str) : Str :=
  (p.reverse.takeWhile (fun c => !(c == '/'))).reverse

/-- The greedy capture (.*) before the literal .html: the longest prefix v
of s such that v ++ ".html" is still a prefix of s (i.e. everything before
the last occurrence of ".html"), none when ".html" does not occur. -/
def lastHtmlSplit : Str → Option Str
  | [] => none
  | c :: rest =>
    match lastHtmlSplit rest with
    | some v => some (c :: v)
    | none => if (str (".html")).isPrefixOf (c :: rest) then some [] else none

/-- Embedding of path.match(/(?:[^:]*:)?(?:[^\/]+\/)*(.*)\.html/)[1] for the
module paths this program produces (paths whose final segment after the
optional scheme contains ".html"); none models the thrown TypeError on a
failed match. -/
def fileNameOf (p : Str) : Option Str := lastHtmlSplit (lastSegment (dropScheme p))

/-- One entry of the filesMap built by splitModulesToFiles. -/
structure FileEntry where
  fileName : Str
  modules : List Str
deriving DecidableEq

/-- Insertion step of the splitModulesToFiles reduce: push the rendered
block onto the existing entry for its extracted path, or create a fresh
entry whose fileName is derived from the path. -/
def splitInsert (p : Str) (blockText : Str) :
    List (Str × FileEntry) → Option (List (Str × FileEntry))
  | [] => (fileNameOf p).map (fun fn => [(p, { fileName := fn, modules := [blockText] })])
  | (k, e) :: rest =>
    if k = p then some ((k, { e with modules := e.modules ++ [blockText] }) :: rest)
    else (splitInsert p blockText rest).map (fun r => (k, e) :: r)

/-- Embedding of splitModulesToFiles: the rendered module blocks are
grouped by the path extracted from each block's text; none models the
TypeError thrown when either regex fails to match. -/
def splitModulesToFiles (blocks : List Str) : Option (List (Str × FileEntry)) :=
  blocks.foldlM
    (fun fm blockText =>
      match extractPath blockText with
      | none => none
      | some p => splitInsert p blockText fm)
    []

/-- The per-entry writes issued by the final Promise.all: each filesMap
entry writes fileName ++ ".d.ts" with the entry's blocks joined by blank
lines plus a trailing newline.  Entries with equal file names target the
same file. -/
def writeList (fm : List (Str × FileEntry)) : List (Str × Str) :=
  fm.map (fun e =>
    (e.2.fileName ++ str (".d.ts"), joinSep (str ("\n\n")) e.2.modules ++ str ("\n")))

end P0

/-! ### Combined-file generator (src/unnamed/part_001) -/

namespace P1

/-- Structured type hint of a doc-comment tag. -/
structure TagType where
  name : Option Str
deriving DecidableEq

/-- One doc-comment tag. -/
structure Tag where
  title : Str
  type : Option TagType
  name : Option Str
  description : Option Str
deriving DecidableEq

/-- Doc-comment structure destructured by printJSdoc. -/
structure JsDoc where
  description : Option Str
  tags : Option (List Tag)
deriving DecidableEq

structure MethodParam where
  name : Str
  type : Str
deriving DecidableEq

/-- Return descriptor of a method; ret models the source field named
return. -/
structure ReturnInfo where
  type : Str
deriving DecidableEq

structure Method where
  name : Str
  params : List MethodParam
  ret : Option ReturnInfo
  privacy : Str
  jsdoc : Option JsDoc
deriving DecidableEq

structure Property where
  name : Str
  type : Str
  privacy : Str
  jsdoc : Option JsDoc
deriving DecidableEq

/-- Analyzer feature record of the combined generator; identifiers models
feature.identifiers (a Set, read via values().next().value). -/
structure Feature where
  kinds : List Str
  identifiers : List Str
  jsdoc : Option JsDoc
  sourceRange : SourceRange
  methods : Option (List Method)
  properties : Option (List Property)
deriving DecidableEq

def supportedFeatures : List Str :=
  [str ("element"), str ("element-mixin"), str ("behavior")]

/-- Embedding of the combined generator's filterFeatures (same shape as the
per-file one but with a three-kind supported list). -/
def filterFeatures (f : Feature) : Bool :=
  f.kinds.any (fun k => supportedFeatures.contains k)

/-- Base-name normalisation of parseType: strip one leading ! or ? and one
trailing =. -/
def parseTypeBase (type : Str) : Str :=
  let t1 :=
    match type with
    | c :: rest => if c == '!' || c == '?' then rest else type
    | [] => type
  match t1.getLast? with
  | some '=' => t1.dropLast
  | _ => t1

def knownTypes : List Str :=
  [str ("Date"), str ("string"), str ("boolean"), str ("number"), str ("Symbol")]

/-- Embedding of parseType(type, forceArray). -/
def parseType (type : Str) (forceArray : Bool) : Str :=
  let t2 := parseTypeBase type
  let t3 :=
    if t2 = str ("Array") then t2 ++ str ("<any>")
    else if knownTypes.contains t2 then t2
    else str ("any")
  if forceArray then str ("Array<") ++ t3 ++ str (">") else t3

/-- Filter predicate of printJSdoc's nonEmptyTags,
tag => tag.title !== "type" || tag.type.name: none models the TypeError
thrown when a type-titled tag has no type object. -/
def tagKeep (t : Tag) : Option Bool :=
  if t.title = str ("type") then
    match t.type with
    | none => none
    | some ty => some (truthy ty.name)
  else some true

/-- The tags.filter call of printJSdoc, propagating the tagKeep throw. -/
def filterTags : List Tag → Option (List Tag)
  | [] => some []
  | t :: ts =>
    match tagKeep t with
    | none => none
    | some b => (filterTags ts).map (fun r => if b then t :: r else r)

/-- The components of one rendered tag annotation line:
[tag.title, optional braced type hint, tag.name, trimmed description]
with falsy components removed by filter(t => !!t). -/
def tagParts (t : Tag) : List Str :=
  (([some t.title]
    ++ (match t.type with
        | some ty =>
          match ty.name with
          | some n => if n.isEmpty then [] else [some (str ("\x7b") ++ n ++ str ("\x7d"))]
          | none => []
        | none => [])
    ++ [t.name, some (jsTrim (t.description.getD []))]).filterMap id).filter
    (fun s => !s.isEmpty)

/-- The template body of printJSdoc once its guard condition held. -/
def renderJSdoc (d : Str) (net : List Tag) : Str :=
  str ("\n/**") ++ indentWith (str (" * ")) false (jsTrim d)
    ++ (if !(jsTrim d).isEmpty && !net.isEmpty then str ("\n *") else [])
    ++ (net.map (fun t => str ("\n * @") ++ joinSep (str (" ")) (tagParts t))).flatten
    ++ str ("\n */")

/-- Embedding of printJSdoc({description, tags}).  The returned none models
the TypeErrors the source can throw: a type-titled tag without a type
object (inside the filter), description.trim() on an absent description,
and nonEmptyTags.length / nonEmptyTags.map on absent tags once the guard
condition held. -/
def printJSdoc (j : JsDoc) : Option Str :=
  match j.tags with
  | none => if truthy j.description then none else some []
  | some ts =>
    match filterTags ts with
    | none => none
    | some net =>
      if truthy j.description || !net.isEmpty then
        match j.description with
        | none => none
        | some d => some (renderJSdoc d net)
      else some []

/-- Embedding of printMethod; none models a thrown TypeError (absent
method.jsdoc is destructured by printJSdoc, or printJSdoc itself threw). -/
def printMethod (m : Method) : Option Str :=
  match m.jsdoc with
  | none => none
  | some j =>
    (printJSdoc j).map (fun jd =>
      indentWith (str ("    ")) true
        (jd ++ str ("\n") ++ m.name ++ str ("(")
          ++ joinSep (str (", "))
              (m.params.map (fun p =>
                p.name ++ str (": ")
                  ++ parseType p.type ((str ("...")).isPrefixOf p.name)))
          ++ str (")")
          ++ (match m.ret with
              | some r => str (": ") ++ parseType r.type false
              | none => [])
          ++ str (";")))

/-- Embedding of printProperty. -/
def printProperty (p : Property) : Option Str :=
  match p.jsdoc with
  | none => none
  | some j =>
    (printJSdoc j).map (fun jd =>
      indentWith (str ("    ")) true
        (jd ++ str ("\n") ++ p.name
          ++ (if (str ("?")).isPrefixOf p.type then str ("?") else [])
          ++ str (": ") ++ parseType p.type false ++ str (";")))

/-- Classified descriptor of the combined generator; nameSpace models the
source field named namespace, and methods/properties carry the rendered
member fragments (absent when the analyzer record had no such field). -/
structure Details where
  nameSpace : Option Str
  name : Str
  jsDoc : JsDoc
  kinds : List Str
  fileName : Str
  module : Str
  methods : Option (List Str)
  properties : Option (List Str)
deriving DecidableEq

/-- The identifier regex (?:([\w]+)\.)?(.*): the optional group matches
exactly when the maximal leading run of word characters is nonempty and
followed by a dot; the rest is the captured identifier. -/
def isWordChar (c : Char) : Bool := c.isAlpha || c.isDigit || c == '_'

def splitIdent (s : Str) : Option Str × Str :=
  let w := s.takeWhile isWordChar
  match s.drop w.length with
  | '.' :: tail => if w.isEmpty then (none, s) else (some w, tail)
  | _ => (none, s)

/-- The method retention of getFeatureDetails:
filter((method) => method.privacy === "public"). -/
def keptMethods (ms : List Method) : List Method :=
  ms.filter (fun m => m.privacy == str ("public"))

/-- The property retention of getFeatureDetails:
filter((prop) => prop.privacy === "public").filter((prop) => prop.type !== "Conditional"). -/
def keptProperties (ps : List Property) : List Property :=
  (ps.filter (fun p => p.privacy == str ("public"))).filter
    (fun p => !(p.type == str ("Conditional")))

/-- Embedding of the combined generator's getFeatureDetails: split the
first identifier into namespace and name, camel-case the name, push a
namespace tag onto the doc comment when a namespace was derived, rewrite
the dependency-root segment of the file path, and render the public
members.  none models a TypeError thrown while rendering members. -/
def getFeatureDetails (f : Feature) : Option Details :=
  let ident0 := f.identifiers.headD []
  let nsId := splitIdent ident0
  let name := camel nsId.2
  let jsDoc0 := f.jsdoc.getD { description := none, tags := none }
  let jsDoc :=
    match nsId.1 with
    | some ns =>
      { jsDoc0 with
          tags := some ((jsDoc0.tags.getD [])
            ++ [{ title := str ("namespace"), type := none,
                  name := some ns, description := none }]) }
    | none => jsDoc0
  let methods : Option (Option (List Str)) :=
    match f.methods with
    | none => some none
    | some ms => ((keptMethods ms).mapM printMethod).map some
  let properties : Option (Option (List Str)) :=
    match f.properties with
    | none => some none
    | some ps => ((keptProperties ps).mapM printProperty).map some
  match methods, properties with
  | some ms, some ps =>
    some
      { nameSpace := nsId.1
        name := name
        jsDoc := jsDoc
        kinds := f.kinds
        fileName := f.sourceRange.file
        module := replaceRepos f.sourceRange.file
        methods := ms
        properties := ps }
  | _, _ => none

/-- Embedding of printBehavior; none models a thrown TypeError (printJSdoc
threw, or the declaration lacked a properties/methods array to join). -/
def printBehavior (d : Details) : Option Str :=
  match printJSdoc d.jsDoc, d.properties, d.methods with
  | some jd, some props, some meths =>
    some
      (indentWith (str ("  ")) true jd
        ++ str ("\n  export interface ") ++ d.name ++ str (" \x7b")
        ++ joinSep (str ("\n")) props
        ++ joinSep (str ("\n")) meths
        ++ str ("\n    new (...args): ") ++ d.name ++ str (";")
        ++ str ("\n  \x7d")
        ++ str ("\n  export const ") ++ d.name ++ str (": ") ++ d.name ++ str (";"))
  | _, _, _ => none

/-- Embedding of the module-grouping reduce over a Map:
map.has(mod.module) ? push : set(mod.module, [mod]). -/
def moduleMapReduce (ds : List Details) : List (Str × List Details) :=
  groupFold (fun d => d.module) ds

/-- One rendered ambient-module block of the final write handler,
"declare module \"path\" \x7b...moduleContents\n\x7d" (without the leading
newline the template adds before each block). -/
def moduleBlock (p : Str) (moduleContents : Str) : Str :=
  str ("declare module \x22") ++ p ++ str ("\x22 \x7b") ++ moduleContents ++ str ("\n\x7d")

/-- The types string of the final write handler: each Map entry renders to
a newline followed by its block, and the entries are joined with "\n". -/
def typesString (entries : List (Str × Str)) : Str :=
  joinSep (str ("\n")) (entries.map (fun e => str ("\n") ++ moduleBlock e.1 e.2))

/-- Embedding of the single-file write: if (types.length)
writeFileSync(outFile, types.trim().concat("\n")); none means no file is
written. -/
def writeCombined (entries : List (Str × Str)) : Option Str :=
  if (typesString entries).length ≠ 0 then some (jsTrim (typesString entries) ++ str ("\n"))
  else none

end P1

/-! ### Definitions following the spec's words, for refinement comparison -/

/-- Spec-modelled module key (spec section 4.2): rewrite the path's leading
dependency-root segment, if any, to the scheme prefix, and append
#Namespace whenever a namespace was derived. -/
def specModuleKey (module : Str) (ns : Option Str) : Str :=
  (if (str ("bower_components/")).isPrefixOf module then
      str ("bower:") ++ module.drop 17
    else if (str ("node_modules/")).isPrefixOf module then
      str ("npm:") ++ module.drop 13
    else module)
    ++ (match ns with
        | some s => '#' :: s
        | none => [])

/-- Spec-modelled supported-kind set (spec section 4.1): class-like
component, shared behavior, mixin, free function, namespace-level value. -/
def specSupportedKinds : List Str :=
  [str ("element"), str ("behavior"), str ("element-mixin"),
   str ("function"), str ("namespace")]

/-! ### Concrete inputs used by the claim theorems -/

/-- Rendered module block for module key a/x.html. -/
def blkA : Str :=
  str ("declare module \x22a/x.html\x22 \x7b\n  export interface A \x7b\n  \x7d\n\x7d")

/-- Rendered module block for module key b/x.html (same derived file name
as blkA, different module key). -/
def blkB : Str :=
  str ("declare module \x22b/x.html\x22 \x7b\n  export interface B \x7b\n  \x7d\n\x7d")

/-- Rendered module block for module key x.html. -/
def blkC : Str :=
  str ("declare module \x22x.html\x22 \x7b\n  export interface C \x7b\n  \x7d\n\x7d")

/-- Rendered module block for module key x.html#Ns (same extracted path as
blkC). -/
def blkD : Str :=
  str ("declare module \x22x.html#Ns\x22 \x7b\n  export interface D \x7b\n  \x7d\n\x7d")

/-- A public method doThing() with no declared return type and an empty
doc comment. -/
def doThingM : P1.Method :=
  { name := str ("doThing"), params := [], ret := none,
    privacy := str ("public"),
    jsdoc := some { description := none, tags := none } }

/-- A shared-behavior feature named MyBehavior with the single public
method doThing(). -/
def behaviorFeature : P1.Feature :=
  { kinds := [str ("behavior")], identifiers := [str ("MyBehavior")],
    jsdoc := none,
    sourceRange := { file := str ("my-behavior.html") },
    methods := some [doThingM], properties := some [] }

/-- The behavior declaration text the combined generator renders for
behaviorFeature. -/
def myBehaviorText : Str :=
  str ("\n  export interface MyBehavior \x7b\n    doThing();\n    new (...args): MyBehavior;\n  \x7d\n  export const MyBehavior: MyBehavior;")

/-- A malformed analyzer feature with neither a class name nor a tag
name. -/
def noNameFeature : P0.Feature :=
  { kinds := [str ("element")], className := none, tagName := none,
    sourceRange := { file := str ("f.html") }, description := none,
    properties := [] }

/-- A doc comment carrying a tag but no description text. -/
def tagOnlyJsDoc : P1.JsDoc :=
  { description := none,
    tags := some [{ title := str ("namespace"), type := none,
                    name := some (str ("Foo")), description := none }] }

/-- A well-formed feature with a tag name only, used to witness that
classification succeeds when a name is available. -/
def taggedFeature : P0.Feature :=
  { kinds := [str ("element")], className := none,
    tagName := some (str ("my-element")),
    sourceRange := { file := str ("my-element.html") }, description := none,
    properties := [] }

/-- A doc comment with both a description and a (well-formed) tag list. -/
def wfJsDoc : P1.JsDoc :=
  { description := some (str ("Hello doc")), tags := some [] }

/-- A classified per-file descriptor whose originating path contains a
dependency-root segment that is not leading. -/
def midRepoDetails : P0.Details :=
  { nameSpace := none, name := str ("B"),
    module := str ("a/bower_components/b.html"), jsdoc := none,
    properties := [] }

/-- A namespaced behavior feature of the combined generator. -/
def nsFeature : P1.Feature :=
  { kinds := [str ("behavior")], identifiers := [str ("Ns.Foo")],
    jsdoc := none, sourceRange := { file := str ("x.html") },
    methods := none, properties := none }

/-- A non-namespaced feature from the same source file as nsFeature. -/
def plainFeature : P1.Feature :=
  { kinds := [str ("behavior")], identifiers := [str ("Bar")],
    jsdoc := none, sourceRange := { file := str ("x.html") },
    methods := none, properties := none }

/-- A free-function feature record as the combined generator would
receive it. -/
def funcFeature : P1.Feature :=
  { kinds := [str ("function")], identifiers := [str ("myFn")],
    jsdoc := none, sourceRange := { file := str ("fns.html") },
    methods := none, properties := none }

/-- A free-function feature record as the per-file generator would
receive it. -/
def funcFeature0 : P0.Feature :=
  { kinds := [str ("function")], className := none,
    tagName := some (str ("myFn")),
    sourceRange := { file := str ("fns.html") }, description := none,
    properties := [] }

/-- A namespaced per-file descriptor. -/
def nsDetails0 : P0.Details :=
  { nameSpace := some (str ("Ns")), name := str ("Foo"),
    module := str ("x.html"), jsdoc := none, properties := [] }

/-- A non-namespaced per-file descriptor from the same file as
nsDetails0. -/
def plainDetails0 : P0.Details :=
  { nameSpace := none, name := str ("Bar"),
    module := str ("x.html"), jsdoc := none, properties := [] }

/-- A feature with a public property whose type descriptor is the
Conditional sentinel, as consumed by the per-file generator. -/
def condFeature : P0.Feature :=
  { kinds := [str ("element")], className := some (str ("Foo")),
    tagName := none, sourceRange := { file := str ("f.html") },
    description := none,
    properties := [{ name := str ("x"), type := str ("Conditional"),
                     readOnly := false, priv := false, params := none,
                     description := none }] }

/-! ### Helper lemmas -/

theorem joinSep_nil (sep : Str) : joinSep sep [] = [] := rfl

theorem joinSep_single (sep x : Str) : joinSep sep [x] = x := rfl

theorem joinSep_cons2 (sep x y : Str) (t : List Str) :
    joinSep sep (x :: y :: t) = x ++ sep ++ joinSep sep (y :: t) := rfl

theorem isPrefixOf_append_self (p t : Str) : p.isPrefixOf (p ++ t) = true := by
  induction p with
  | nil => simp [List.isPrefixOf]
  | cons c cs ih => simp [List.isPrefixOf, ih]

theorem replaceRepos_bower (rest : Str) :
    replaceRepos (str ("bower_components/") ++ rest) = str ("bower:") ++ rest := by
  have h1 : str ("bower_components/") ++ rest
      = 'b' :: (str ("ower_components/") ++ rest) := rfl
  have h2 : (str ("bower_components/")).isPrefixOf
      ('b' :: (str ("ower_components/") ++ rest)) = true := by
    rw [← h1]; exact isPrefixOf_append_self _ rest
  have h3 : 17 = (str ("bower_components/")).length := rfl
  rw [h1, replaceRepos, if_pos h2, ← h1, h3, List.drop_left]

theorem replaceRepos_npm (rest : Str) :
    replaceRepos (str ("node_modules/") ++ rest) = str ("npm:") ++ rest := by
  have h1 : str ("node_modules/") ++ rest
      = 'n' :: (str ("ode_modules/") ++ rest) := rfl
  have h2 : (str ("node_modules/")).isPrefixOf
      ('n' :: (str ("ode_modules/") ++ rest)) = true := by
    rw [← h1]; exact isPrefixOf_append_self _ rest
  have hb : (str ("bower_components/")).isPrefixOf
      ('n' :: (str ("ode_modules/") ++ rest)) = false := by
    simp [List.isPrefixOf, str]
  have h3 : 13 = (str ("node_modules/")).length := rfl
  rw [h1, replaceRepos, if_neg (by simp [hb]), if_pos h2, ← h1, h3, List.drop_left]

theorem charOfNat_toNat (n : Nat) (h : n.isValidChar) : (Char.ofNat n).toNat = n := by
  simp only [Char.ofNat, dif_pos h, Char.ofNatAux, Char.toNat]
  rfl

theorem toUpper_idem (c : Char) : c.toUpper.toUpper = c.toUpper := by
  by_cases h : c.toNat ≥ 97 ∧ c.toNat ≤ 122
  · have hval : (c.toNat - 32).isValidChar := Or.inl (by omega)
    have h1 : c.toUpper = Char.ofNat (c.toNat - 32) := by
      simp [Char.toUpper, h]
    have h3 : ¬((Char.ofNat (c.toNat - 32)).toNat ≥ 97
        ∧ (Char.ofNat (c.toNat - 32)).toNat ≤ 122) := by
      rw [charOfNat_toNat _ hval]; omega
    rw [h1]
    simp [Char.toUpper, h3]
  · have h1 : c.toUpper = c := by simp [Char.toUpper, h]
    rw [h1, h1]

theorem camelGo_cons (c : Char) (r : Str) :
    camelGo (c :: r) =
      if c = '-' then
        match r with
        | [] => [c]
        | c2 :: r2 => c2.toUpper :: camelGo r2
      else c :: camelGo r := by
  rw [camelGo.eq_def]
  rfl

theorem camelGo_no_hyphen (l : Str) (h : '-' ∉ l) : camelGo l = l := by
  induction l with
  | nil => rfl
  | cons c cs ih =>
    have hc : c ≠ '-' := fun he => h (he ▸ List.mem_cons_self c cs)
    have hcs : '-' ∉ cs := fun hm => h (List.mem_cons_of_mem c hm)
    rw [camelGo_cons, if_neg hc, ih hcs]

theorem camel_cons (c : Char) (r : Str) : camel (c :: r) = c.toUpper :: camelGo r := rfl

theorem camel_idem_of_no_hyphen (s : Str) (h : '-' ∉ camel s) :
    camel (camel s) = camel s := by
  cases s with
  | nil => rfl
  | cons c r =>
    rw [camel_cons] at h ⊢
    have hgo : '-' ∉ camelGo r := fun hm => h (List.mem_cons_of_mem _ hm)
    rw [camel_cons, toUpper_idem, camelGo_no_hyphen _ hgo]

theorem lookupGroup_updMap {α : Type} (m : List (Str × List α)) (k k0 : Str) (x : α) :
    lookupGroup k (updMap k0 x m) =
      if k0 = k then lookupGroup k m ++ [x] else lookupGroup k m := by
  induction m with
  | nil => by_cases h : k0 = k <;> simp [updMap, lookupGroup, h]
  | cons e rest ih =>
    obtain ⟨k1, xs⟩ := e
    by_cases h1 : k1 = k0 <;> by_cases h2 : k1 = k <;> by_cases h3 : k0 = k <;>
      simp_all [updMap, lookupGroup]

theorem keys_updMap {α : Type} (m : List (Str × List α)) (k : Str) (x : α) :
    (updMap k x m).map Prod.fst =
      if k ∈ m.map Prod.fst then m.map Prod.fst else m.map Prod.fst ++ [k] := by
  induction m with
  | nil => simp [updMap]
  | cons e rest ih =>
    obtain ⟨k1, xs⟩ := e
    by_cases h1 : k1 = k
    · simp_all [updMap]
    · have hne : ¬k = k1 := fun he => h1 he.symm
      simp only [updMap, if_neg h1, List.map_cons, ih, List.mem_cons, hne, false_or]
      by_cases h2 : k ∈ rest.map Prod.fst <;> simp [h2]

theorem nodup_keys_updMap {α : Type} (m : List (Str × List α)) (k : Str) (x : α)
    (h : (m.map Prod.fst).Nodup) : ((updMap k x m).map Prod.fst).Nodup := by
  rw [keys_updMap]
  split
  · exact h
  · rename_i hnot
    simp [List.nodup_append, h, hnot]

theorem flatMap_updMap {α : Type} (m : List (Str × List α)) (k : Str) (x : α) :
    ((updMap k x m).flatMap Prod.snd).Perm (x :: m.flatMap Prod.snd) := by
  induction m with
  | nil => simp [updMap]
  | cons e rest ih =>
    obtain ⟨k1, xs⟩ := e
    by_cases h : k1 = k
    · simp only [updMap, if_pos h, List.flatMap_cons, List.append_assoc]
      exact List.perm_middle
    · simp only [updMap, if_neg h, List.flatMap_cons]
      exact (List.Perm.append_left xs ih).trans List.perm_middle

theorem lookupGroup_foldl {α : Type} (key : α → Str) (xs : List α)
    (m : List (Str × List α)) (k : Str) :
    lookupGroup k (xs.foldl (fun m x => updMap (key x) x m) m)
      = lookupGroup k m ++ xs.filter (fun x => key x == k) := by
  induction xs generalizing m with
  | nil => simp
  | cons x xs ih =>
    rw [List.foldl_cons, ih, lookupGroup_updMap]
    by_cases h : key x = k
    · simp [List.filter_cons, h]
    · simp [List.filter_cons, h]

theorem nodup_keys_foldl {α : Type} (key : α → Str) (xs : List α)
    (m : List (Str × List α)) (h : (m.map Prod.fst).Nodup) :
    (((xs.foldl (fun m x => updMap (key x) x m) m)).map Prod.fst).Nodup := by
  induction xs generalizing m with
  | nil => exact h
  | cons x xs ih => exact ih _ (nodup_keys_updMap _ _ _ h)

theorem flatMap_foldl {α : Type} (key : α → Str) (xs : List α)
    (m : List (Str × List α)) :
    ((xs.foldl (fun m x => updMap (key x) x m) m).flatMap Prod.snd).Perm
      (m.flatMap Prod.snd ++ xs) := by
  induction xs generalizing m with
  | nil => simp
  | cons x xs ih =>
    rw [List.foldl_cons]
    refine (ih _).trans ?_
    refine (List.Perm.append_right xs (flatMap_updMap m (key x) x)).trans ?_
    exact List.perm_middle.symm

theorem lookupGroup_groupFold {α : Type} (key : α → Str) (xs : List α) (k : Str) :
    lookupGroup k (groupFold key xs) = xs.filter (fun x => key x == k) := by
  have := lookupGroup_foldl key xs [] k
  simpa [groupFold, lookupGroup] using this

theorem nodup_keys_groupFold {α : Type} (key : α → Str) (xs : List α) :
    ((groupFold key xs).map Prod.fst).Nodup := by
  exact nodup_keys_foldl key xs [] (by simp)

theorem flatMap_groupFold {α : Type} (key : α → Str) (xs : List α) :
    ((groupFold key xs).flatMap Prod.snd).Perm xs := by
  have := flatMap_foldl key xs []
  simpa [groupFold] using this

theorem jsTrimEnd_append_last (l : Str) (c : Char) (h : wsChar c = false) :
    jsTrimEnd (l ++ [c]) = l ++ [c] := by
  simp [jsTrimEnd, List.reverse_append, List.dropWhile_cons, h]

theorem jsTrim_newline_block (J t w : Str)
    (hhead : J = 'd' :: t) (hlast : J = w ++ [('\x7d' : Char)]) :
    jsTrim (('\n' : Char) :: J) = J := by
  unfold jsTrim jsTrimStart
  rw [List.dropWhile_cons]
  simp only [show wsChar '\n' = true from rfl, if_true]
  rw [hhead, List.dropWhile_cons]
  simp only [show wsChar 'd' = false from rfl, Bool.false_eq_true, if_false]
  rw [← hhead, hlast]
  exact jsTrimEnd_append_last w _ rfl

theorem moduleBlock_ends (p mc : Str) :
    P1.moduleBlock p mc
      = (str ("declare module \x22") ++ p ++ str ("\x22 \x7b") ++ mc ++ [('\n' : Char)])
          ++ [('\x7d' : Char)] := by
  have h : str ("\n\x7d") = [('\n' : Char), ('\x7d' : Char)] := rfl
  simp [P1.moduleBlock, h]

theorem moduleBlock_head (p mc : Str) :
    P1.moduleBlock p mc
      = 'd' :: (str ("eclare module \x22") ++ p ++ str ("\x22 \x7b") ++ mc ++ str ("\n\x7d")) := by
  have h : str ("declare module \x22") = 'd' :: str ("eclare module \x22") := rfl
  simp [P1.moduleBlock, h]

theorem joinSep_ends_brace (sep : Str) (l : List Str)
    (h : ∀ s ∈ l, ∃ w, s = w ++ [('\x7d' : Char)]) (hne : l ≠ []) :
    ∃ w, joinSep sep l = w ++ [('\x7d' : Char)] := by
  induction l with
  | nil => cases hne rfl
  | cons x xs ih =>
    cases xs with
    | nil => exact ⟨(h x (List.mem_cons_self x [])).choose,
        by rw [joinSep_single]; exact (h x (List.mem_cons_self x [])).choose_spec⟩
    | cons y ys =>
      obtain ⟨w2, hw2⟩ := ih (fun s hs => h s (List.mem_cons_of_mem _ hs)) (by simp)
      exact ⟨x ++ sep ++ w2, by rw [joinSep_cons2, hw2]; simp [List.append_assoc]⟩

theorem joinSep_head_d (sep x : Str) (xs : List Str) (t : Str) (hx : x = 'd' :: t) :
    ∃ u, joinSep sep (x :: xs) = 'd' :: u := by
  cases xs with
  | nil => exact ⟨t, hx⟩
  | cons y ys =>
    exact ⟨t ++ sep ++ joinSep sep (y :: ys), by rw [joinSep_cons2, hx]; simp⟩

theorem typesString_cons (e : Str × Str) (es : List (Str × Str)) :
    P1.typesString (e :: es) =
      '\n' :: joinSep (str ("\n\n"))
        ((e :: es).map (fun x => P1.moduleBlock x.1 x.2)) := by
  induction es generalizing e with
  | nil => rfl
  | cons e2 es2 ih =>
    have hnl : str ("\n") = [('\n' : Char)] := rfl
    have hnl2 : str ("\n\n") = [('\n' : Char), ('\n' : Char)] := rfl
    have ih2 := ih e2
    unfold P1.typesString at ih2 ⊢
    simp only [List.map_cons, joinSep_cons2] at ih2 ⊢
    rw [ih2, hnl, hnl2]
    simp

/-! ### Claim theorems -/

/-- C4: the type-mapping functions are total (they are plain Lean functions
over every descriptor string) and conservatively map any descriptor whose
stripped base name is not a recognized primitive, the Array constructor, or
the Function constructor to the universal any type: parseType falls back to
any (wrapped as Array of any only under the variadic flag), and cast falls
back to return type any with no parameter fragment. -/
theorem type_mapping_fallback_any :
    (∀ type : Str,
        P1.parseTypeBase type ∉ P1.knownTypes
        → P1.parseTypeBase type ≠ str ("Array")
        → P1.parseType type false = str ("any")
          ∧ P1.parseType type true = str ("Array<any>"))
    ∧ (∀ (name type : Str) (params : Option (List P0.Param)),
        type ∉ P0.primitives → type ≠ str ("Function") → type ≠ str ("Array")
        → P0.cast name type params
            = { returnType := str ("any"), methodParams := none }) := by
  constructor
  · intro type h1 h2
    have hc : P1.knownTypes.contains (P1.parseTypeBase type) = false := by
      simpa using h1
    constructor
    · simp only [P1.parseType, if_neg h2, hc, Bool.false_eq_true, if_false]
      try rfl
    · simp only [P1.parseType, if_neg h2, hc, Bool.false_eq_true, if_false]
      try rfl
  · intro name type params h1 h2 h3
    have hc : P0.primitives.contains type = false := by simpa using h1
    simp only [P0.cast, hc, Bool.false_eq_true, if_false, if_neg h2, if_neg h3]

/-- Witness for C4 at the concrete unrecognized descriptor CustomElement. -/
theorem type_mapping_fallback_any_witness :
    P1.parseType (str ("CustomElement")) false = str ("any")
    ∧ P0.cast (str ("doThing")) (str ("CustomElement")) none
        = { returnType := str ("any"), methodParams := none } :=
  ⟨(type_mapping_fallback_any.1 (str ("CustomElement")) (by decide) (by decide)).1,
   type_mapping_fallback_any.2 (str ("doThing")) (str ("CustomElement")) none
     (by decide) (by decide) (by decide)⟩

/-- C9 counterexample: identifier casing is not idempotent on every string;
a--b cases once to A-b and a second application yields AB. -/
theorem camel_not_idempotent :
    camel (str ("a--b")) = str ("A-b")
    ∧ camel (camel (str ("a--b"))) = str ("AB")
    ∧ camel (camel (str ("a--b"))) ≠ camel (str ("a--b")) := by
  refine ⟨by decide, by decide, by decide⟩

/-- C9 amended: identifier casing is a deterministic function mapping
my-element to MyElement and already-Capped to AlreadyCapped, and it is
idempotent on every string whose cased form contains no hyphen (in
particular on already-cased hyphen-free input); it is not idempotent on
strings with consecutive hyphens. -/
theorem camel_amended :
    camel (str ("my-element")) = str ("MyElement")
    ∧ camel (str ("already-Capped")) = str ("AlreadyCapped")
    ∧ ∀ s : Str, '-' ∉ camel s → camel (camel s) = camel s :=
  ⟨by decide, by decide, camel_idem_of_no_hyphen⟩

/-- Witness for C9 applying the idempotence part at MyElement. -/
theorem camel_amended_witness :
    '-' ∉ camel (str ("MyElement"))
    ∧ camel (camel (str ("MyElement"))) = camel (str ("MyElement")) :=
  ⟨by decide, camel_amended.2.2 (str ("MyElement")) (by decide)⟩

/-- C6 counterexample: the free-function kind belongs to the spec's
supported set and passes the per-file generator's filter, but the combined
generator's filter drops it (its supported list omits function and
namespace). -/
theorem filter_supported_set_counterexample :
    str ("function") ∈ specSupportedKinds
    ∧ P0.filterFeatures funcFeature0 = true
    ∧ str ("function") ∉ P1.supportedFeatures
    ∧ P1.filterFeatures funcFeature = false := by
  refine ⟨by decide, by decide, by decide, by decide⟩

/-- C6 amended: each generator's feature filter produces exactly the
order-preserving subsequence of features whose kind set meets that
generator's own supported list; the per-file list has the five spec kinds,
the combined list only element, element-mixin and behavior. -/
theorem filter_exact_subsequence :
    (∀ fs : List P0.Feature, (fs.filter P0.filterFeatures).Sublist fs)
    ∧ (∀ (fs : List P0.Feature) (f : P0.Feature),
        f ∈ fs.filter P0.filterFeatures
          ↔ f ∈ fs ∧ ∃ k ∈ f.kinds, k ∈ P0.supportedFeatures)
    ∧ (∀ fs : List P1.Feature, (fs.filter P1.filterFeatures).Sublist fs)
    ∧ (∀ (fs : List P1.Feature) (f : P1.Feature),
        f ∈ fs.filter P1.filterFeatures
          ↔ f ∈ fs ∧ ∃ k ∈ f.kinds, k ∈ P1.supportedFeatures) := by
  refine ⟨fun fs => List.filter_sublist fs, fun fs f => ?_,
    fun fs => List.filter_sublist fs, fun fs f => ?_⟩
  · simp [List.mem_filter, P0.filterFeatures, List.any_eq_true]
  · simp [List.mem_filter, P1.filterFeatures, List.any_eq_true]

/-- C7 counterexample: the per-file generator retains a public member whose
type descriptor is the Conditional sentinel (mapping it to any) instead of
dropping it. -/
theorem conditional_member_retained :
    (P0.getFeatureDetails condFeature).map
        (fun d => d.properties.map (fun p => (p.name, p.type)))
      = some [(str ("x"), str ("any")), (str ("new"), str ("Foo"))] := by
  decide

/-- C7 amended: in the combined generator the retained properties are
exactly the public ones whose type is not the Conditional sentinel and the
retained methods are exactly the public ones (no Conditional check), both
in order; in the per-file generator only the non-private check is applied,
so Conditional-typed members are kept. -/
theorem member_filtering_amended :
    (∀ (ps : List P1.Property) (p : P1.Property),
        p ∈ P1.keptProperties ps
          ↔ p ∈ ps ∧ p.privacy = str ("public") ∧ p.type ≠ str ("Conditional"))
    ∧ (∀ ps : List P1.Property, (P1.keptProperties ps).Sublist ps)
    ∧ (∀ (ms : List P1.Method) (m : P1.Method),
        m ∈ P1.keptMethods ms ↔ m ∈ ms ∧ m.privacy = str ("public"))
    ∧ (∀ ms : List P1.Method, (P1.keptMethods ms).Sublist ms)
    ∧ (∀ (qs : List P0.Property) (q : P0.Property),
        q ∈ qs.filter (fun p => !p.priv) ↔ q ∈ qs ∧ q.priv = false) := by
  refine ⟨fun ps p => ?_, fun ps => ?_, fun ms m => ?_,
    fun ms => List.filter_sublist ms, fun qs q => ?_⟩
  · simp only [P1.keptProperties, List.mem_filter, beq_iff_eq, Bool.not_eq_true',
      ne_eq, Bool.and_eq_true, bne_iff_ne]
    constructor
    · rintro ⟨⟨hm, hpub⟩, hcond⟩
      refine ⟨hm, by simpa using hpub, by simpa using hcond⟩
    · rintro ⟨hm, hpub, hcond⟩
      refine ⟨⟨hm, by simpa using hpub⟩, by simpa using hcond⟩
  · exact (List.filter_sublist _).trans (List.filter_sublist _)
  · simp [P1.keptMethods, List.mem_filter]
  · simp [List.mem_filter]

/-- C8: both module groupings are true partitions: the bucket of key k
holds exactly, and in first-seen order, the classified descriptors whose
module key is k; bucket keys are pairwise distinct; and flattening all
buckets is a permutation of the input list (no duplication, no loss). -/
theorem module_grouping_partition :
    (∀ (ds : List P0.Details) (k : Str),
        lookupGroup k (P0.toModulesMap ds)
          = ds.filter (fun d => P0.modulePath d == k))
    ∧ (∀ ds : List P0.Details, ((P0.toModulesMap ds).map Prod.fst).Nodup)
    ∧ (∀ ds : List P0.Details, ((P0.toModulesMap ds).flatMap Prod.snd).Perm ds)
    ∧ (∀ (ds : List P1.Details) (k : Str),
        lookupGroup k (P1.moduleMapReduce ds)
          = ds.filter (fun d => d.module == k))
    ∧ (∀ ds : List P1.Details, ((P1.moduleMapReduce ds).map Prod.fst).Nodup)
    ∧ (∀ ds : List P1.Details, ((P1.moduleMapReduce ds).flatMap Prod.snd).Perm ds) :=
  ⟨fun ds k => lookupGroup_groupFold P0.modulePath ds k,
   fun ds => nodup_keys_groupFold P0.modulePath ds,
   fun ds => flatMap_groupFold P0.modulePath ds,
   fun ds k => lookupGroup_groupFold (fun d : P1.Details => d.module) ds k,
   fun ds => nodup_keys_groupFold (fun d : P1.Details => d.module) ds,
   fun ds => flatMap_groupFold (fun d : P1.Details => d.module) ds⟩

theorem writeCombined_cons (e : Str × Str) (es : List (Str × Str)) :
    P1.writeCombined (e :: es)
      = some (joinSep (str ("\n\n"))
          ((e :: es).map (fun x => P1.moduleBlock x.1 x.2)) ++ str ("\n")) := by
  have hts := typesString_cons e es
  have hmap : (e :: es).map (fun x => P1.moduleBlock x.1 x.2)
      = P1.moduleBlock e.1 e.2 :: es.map (fun x => P1.moduleBlock x.1 x.2) := rfl
  obtain ⟨t, ht⟩ := joinSep_head_d (str ("\n\n")) (P1.moduleBlock e.1 e.2)
    (es.map (fun x => P1.moduleBlock x.1 x.2)) _ (moduleBlock_head e.1 e.2)
  rw [← hmap] at ht
  obtain ⟨w, hw⟩ := joinSep_ends_brace (str ("\n\n"))
    ((e :: es).map (fun x => P1.moduleBlock x.1 x.2))
    (fun s hs => by
      obtain ⟨x, hx, rfl⟩ := List.mem_map.mp hs
      exact ⟨_, moduleBlock_ends x.1 x.2⟩)
    (by simp)
  have hnl : str ("\n") = [('\n' : Char)] := rfl
  unfold P1.writeCombined
  rw [hts]
  have hlen : (('\n' :: joinSep (str ("\n\n"))
      ((e :: es).map (fun x => P1.moduleBlock x.1 x.2))).length) ≠ 0 := by simp
  rw [if_pos hlen, jsTrim_newline_block _ t w ht hw]

/-- C10: in combined mode the output file is written iff at least one
module bucket exists (zero supported features yield no buckets, hence no
file), and when buckets exist the written text is the rendered module
blocks joined by a single blank line with exactly one trailing newline (the
text ends in a closing brace followed by one newline). -/
theorem combined_write_iff :
    ∀ entries : List (Str × Str),
      (P1.writeCombined entries = none ↔ entries = [])
      ∧ (∀ e es, entries = e :: es →
          P1.writeCombined entries
            = some (joinSep (str ("\n\n"))
                (entries.map (fun x => P1.moduleBlock x.1 x.2)) ++ str ("\n"))
          ∧ ∃ w, P1.writeCombined entries = some (w ++ str ("\x7d\n"))) := by
  intro entries
  constructor
  · constructor
    · intro h
      cases entries with
      | nil => rfl
      | cons e es =>
        rw [writeCombined_cons] at h
        cases h
    · rintro rfl
      rfl
  · rintro e es rfl
    refine ⟨writeCombined_cons e es, ?_⟩
    obtain ⟨w, hw⟩ := joinSep_ends_brace (str ("\n\n"))
      ((e :: es).map (fun x => P1.moduleBlock x.1 x.2))
      (fun s hs => by
        obtain ⟨x, hx, rfl⟩ := List.mem_map.mp hs
        exact ⟨_, moduleBlock_ends x.1 x.2⟩)
      (by simp)
    refine ⟨w, ?_⟩
    rw [writeCombined_cons, hw]
    have h2 : str ("\x7d\n") = [('\x7d' : Char), ('\n' : Char)] := rfl
    have h3 : str ("\n") = [('\n' : Char)] := rfl
    rw [h2, h3]
    simp

/-- Witness for C10 at a single concrete module bucket. -/
theorem combined_write_iff_witness :
    P1.writeCombined [(str ("m.html"), str (""))]
      = some (joinSep (str ("\n\n"))
          ([(str ("m.html"), str (""))].map (fun x => P1.moduleBlock x.1 x.2))
          ++ str ("\n")) :=
  (((combined_write_iff [(str ("m.html"), str (""))]).2
    (str ("m.html"), str ("")) [] rfl)).1

/-- C1 counterexample: two distinct module keys (a/x.html and b/x.html)
derive the same file name x, yet splitModulesToFiles keeps them in two
separate entries both writing x.d.ts, and neither written content contains
both rendered blocks — the later write replaces the earlier file instead of
concatenating. -/
theorem splitFiles_distinct_paths_overwrite :
    P0.splitModulesToFiles [blkA, blkB]
      = some [(str ("a/x.html"), { fileName := str ("x"), modules := [blkA] }),
              (str ("b/x.html"), { fileName := str ("x"), modules := [blkB] })]
    ∧ (P0.splitModulesToFiles [blkA, blkB]).map P0.writeList
      = some [(str ("x.d.ts"), blkA ++ str ("\n")),
              (str ("x.d.ts"), blkB ++ str ("\n"))]
    ∧ infixOf blkB (blkA ++ str ("\n")) = false
    ∧ infixOf blkA (blkB ++ str ("\n")) = false := by
  refine ⟨by decide, by decide, by decide, by decide⟩

/-- C1 amended: blocks are grouped by the path extracted from the rendered
block text (the module key up to any #namespace fragment): module keys
equal up to that fragment share one filesMap entry and their blocks are
concatenated with blank lines under the derived file name, while module
keys with distinct paths but equal derived file names stay in separate
entries whose writes target the same file, so one overwrites the other. -/
theorem splitFiles_grouping_amended :
    P0.extractPath blkC = some (str ("x.html"))
    ∧ P0.extractPath blkD = some (str ("x.html"))
    ∧ P0.splitModulesToFiles [blkC, blkD]
        = some [(str ("x.html"), { fileName := str ("x"), modules := [blkC, blkD] })]
    ∧ (P0.splitModulesToFiles [blkC, blkD]).map P0.writeList
        = some [(str ("x.d.ts"), blkC ++ str ("\n\n") ++ blkD ++ str ("\n"))]
    ∧ infixOf blkC (blkC ++ str ("\n\n") ++ blkD ++ str ("\n")) = true
    ∧ infixOf blkD (blkC ++ str ("\n\n") ++ blkD ++ str ("\n")) = true := by
  refine ⟨by decide, by decide, by decide, by decide, by decide, by decide⟩

/-- C2 counterexample: for a shared-behavior feature MyBehavior with one
public method doThing() returning nothing, the rendered output contains no
doThing(): void member — the method renders with no return annotation at
all (and even an explicit void descriptor would map to any). -/
theorem behavior_no_void_return :
    (P1.getFeatureDetails behaviorFeature).bind P1.printBehavior = some myBehaviorText
    ∧ infixOf (str ("doThing(): void")) myBehaviorText = false
    ∧ infixOf (str ("doThing();")) myBehaviorText = true
    ∧ P1.parseType (str ("void")) false = str ("any") := by
  refine ⟨by decide, by decide, by decide, by decide⟩

/-- C2 amended: the rendered behavior output contains the interface
declaration for MyBehavior with the member doThing(); (no return-type
annotation), the synthesized open-ended constructor signature, and the
companion value declaration export const MyBehavior: MyBehavior;. -/
theorem behavior_interface_and_const :
    (P1.getFeatureDetails behaviorFeature).bind P1.printBehavior = some myBehaviorText
    ∧ infixOf (str ("export interface MyBehavior \x7b")) myBehaviorText = true
    ∧ infixOf (str ("doThing();")) myBehaviorText = true
    ∧ infixOf (str ("new (...args): MyBehavior;")) myBehaviorText = true
    ∧ infixOf (str ("export const MyBehavior: MyBehavior;")) myBehaviorText = true := by
  refine ⟨by decide, by decide, by decide, by decide, by decide⟩

theorem filterTags_total (ts : List P1.Tag)
    (h : ∀ t ∈ ts, t.title = str ("type") → t.type.isSome = true) :
    (P1.filterTags ts).isSome = true := by
  induction ts with
  | nil => rfl
  | cons t ts ih =>
    have hrest := ih (fun t2 h2 ht2 => h t2 (List.mem_cons_of_mem _ h2) ht2)
    obtain ⟨r, hr⟩ := Option.isSome_iff_exists.mp hrest
    unfold P1.filterTags P1.tagKeep
    by_cases ht : t.title = str ("type")
    · obtain ⟨ty, hty⟩ := Option.isSome_iff_exists.mp
        (h t (List.mem_cons_self t ts) ht)
      simp [ht, hty, hr]
    · simp [ht, hr]

/-- C3 counterexample: the classification stage does throw on the
malformed inputs the claim itself names — a feature with neither a class
name nor a tag name makes getFeatureDetails dereference an undefined name,
and a doc comment with tags but no description makes printJSdoc call
trim() on an undefined description. -/
theorem classification_throws_on_malformed :
    P0.getFeatureDetails noNameFeature = none
    ∧ P1.printJSdoc tagOnlyJsDoc = none := by
  refine ⟨by decide, by decide⟩

/-- C3 amended: the type-mapping functions never throw (cast and parseType
are total functions into plain results), and classification and
doc-comment rendering succeed on well-formed records: per-file
classification succeeds whenever the feature has a truthy class name or a
tag name, and printJSdoc succeeds whenever the doc comment has a
description, a tag array, and no type-titled tag lacking its type object;
but they do throw on the malformed inputs named in the claim. -/
theorem classification_total_on_wellformed :
    (∀ f : P0.Feature,
        truthy f.className = true ∨ f.tagName.isSome = true
        → (P0.getFeatureDetails f).isSome = true)
    ∧ (∀ (j : P1.JsDoc) (ts : List P1.Tag),
        j.description.isSome = true → j.tags = some ts
        → (∀ t ∈ ts, t.title = str ("type") → t.type.isSome = true)
        → (P1.printJSdoc j).isSome = true) := by
  constructor
  · intro f hf
    unfold P0.getFeatureDetails
    by_cases h : truthy f.className = true
    · simp [h]
    · rcases hf with hf | hf
      · exact absurd hf h
      · obtain ⟨tn, htn⟩ := Option.isSome_iff_exists.mp hf
        simp [h, htn]
  · intro j ts hdesc htags hwf
    obtain ⟨d, hd⟩ := Option.isSome_iff_exists.mp hdesc
    obtain ⟨net, hnet⟩ := Option.isSome_iff_exists.mp (filterTags_total ts hwf)
    unfold P1.printJSdoc
    rw [htags]
    by_cases hc : truthy (some d) = true ∨ ¬net = []
    · simp [hnet, hd, hc]
    · simp [hnet, hd, hc]

/-- Witness for C3 at a tag-named feature and a well-formed doc comment. -/
theorem classification_total_on_wellformed_witness :
    (P0.getFeatureDetails taggedFeature).isSome = true
    ∧ (P1.printJSdoc wfJsDoc).isSome = true :=
  ⟨classification_total_on_wellformed.1 taggedFeature (Or.inr (by decide)),
   classification_total_on_wellformed.2 wfJsDoc [] (by decide) rfl (by decide)⟩

/-- C5 counterexample: the dependency-root rewrite fires on the first
occurrence anywhere in the path, not only a leading segment (the spec-worded
key leaves a/bower_components/b.html unchanged but the code rewrites it);
and in the combined generator no #Namespace is appended, so a namespaced
and a non-namespaced feature from the same file share the bucket key. -/
theorem module_key_rewrite_counterexample :
    P0.modulePath midRepoDetails = str ("a/bower:b.html")
    ∧ specModuleKey (str ("a/bower_components/b.html")) none
        = str ("a/bower_components/b.html")
    ∧ P0.modulePath midRepoDetails
        ≠ specModuleKey (str ("a/bower_components/b.html")) none
    ∧ (P1.getFeatureDetails nsFeature).map P1.Details.module
        = (P1.getFeatureDetails plainFeature).map P1.Details.module
    ∧ (P1.getFeatureDetails nsFeature).map P1.Details.nameSpace
        = some (some (str ("Ns")))
    ∧ (P1.getFeatureDetails plainFeature).map P1.Details.nameSpace = some none := by
  refine ⟨by decide, by decide, by decide, by decide, by decide, by decide⟩

/-- C5 amended: when the dependency-root segment is leading the rewrite
agrees with the spec (bower_components/rest becomes bower:rest and
node_modules/rest becomes npm:rest, and the rewrite also fires on
non-leading occurrences); in the per-file generator #Namespace is appended
for a truthy namespace, so a namespaced and a non-namespaced descriptor
from the same file never share a bucket key there — the combined generator
omits the fragment, as the counterexample shows. -/
theorem module_key_amended :
    (∀ rest : Str,
        replaceRepos (str ("bower_components/") ++ rest) = str ("bower:") ++ rest)
    ∧ (∀ rest : Str,
        replaceRepos (str ("node_modules/") ++ rest) = str ("npm:") ++ rest)
    ∧ (∀ (d d2 : P0.Details) (n : Str),
        d.nameSpace = some n → n ≠ [] → d2.module = d.module
        → d2.nameSpace = none → P0.modulePath d ≠ P0.modulePath d2) := by
  refine ⟨replaceRepos_bower, replaceRepos_npm, ?_⟩
  intro d d2 n hn hne hmod hns heq
  have hie : n.isEmpty = false := by simpa using hne
  unfold P0.modulePath P0.nsSuffix at heq
  rw [hn, hns, hmod] at heq
  simp [hie] at heq

/-- Witness for C5 at concrete leading-root paths and descriptors. -/
theorem module_key_amended_witness :
    replaceRepos (str ("bower_components/") ++ str ("b.html"))
      = str ("bower:") ++ str ("b.html")
    ∧ replaceRepos (str ("node_modules/") ++ str ("b.html"))
      = str ("npm:") ++ str ("b.html")
    ∧ P0.modulePath nsDetails0 ≠ P0.modulePath plainDetails0 :=
  ⟨module_key_amended.1 (str ("b.html")),
   module_key_amended.2.1 (str ("b.html")),
   module_key_amended.2.2 nsDetails0 plainDetails0 (str ("Ns"))
     rfl (by decide) rfl rfl⟩

end Potts
